import Mathlib

/-!
# Verification of the `yab` cachegrind-based benchmark harness

Shallow embedding of the stats model, simulator-output parser, measurement
protocol, capture harness, regression checker and benchmark-id comparison of
the `yab` crate (`crates/yab/src/{cachegrind,bencher,options,reporter/baseline}.rs`
and `src/id.rs`), together with proofs about them.

Machine integers (`u64`) are modelled as `Nat`. Rust release-mode wrapping
addition and multiplication are modelled with an explicit `% 2^64`;
`u64::saturating_sub` coincides with truncated `Nat` subtraction on values
below `2^64`, so it is modelled as `Nat.sub`. Unchecked Rust subtraction
(`a - b`, which never underflows at its call sites under the documented
invariants) is likewise modelled as truncated subtraction.
-/

/-- Size of the `u64` value domain. -/
def u64Size : Nat := 2 ^ 64

/-- Wrapping (release-mode) `u64` addition. -/
def wadd (x y : Nat) : Nat := (x + y) % u64Size

/-- Wrapping (release-mode) `u64` multiplication. -/
def wmul (x y : Nat) : Nat := (x * y) % u64Size

/-- `u64::checked_sub`: `none` exactly when the subtraction would underflow. -/
def checkedSub (x y : Nat) : Option Nat := if x < y then none else some (x - y)

/-- `u64::clamp(self, min, max)`: panics (modelled as `none`) when `min > max`;
otherwise returns `min`/`max`/`self` depending on the comparisons. -/
def rustClamp (x lo hi : Nat) : Option Nat :=
  if lo > hi then none
  else if x < lo then some lo
  else if x > hi then some hi
  else some x

/-- `CachegrindDataPoint` (`crates/yab/src/cachegrind.rs`): counters for one
event class (instructions, data reads or data writes). -/
structure CachegrindDataPoint where
  total : Nat
  l1_misses : Nat
  l3_misses : Nat
deriving DecidableEq

namespace CachegrindDataPoint

/-- The zero point, i.e. `CachegrindDataPoint::default()`. -/
def zero : CachegrindDataPoint := ⟨0, 0, 0⟩

/-- `CachegrindDataPoint::l1_hits` (unchecked `u64` subtraction in source). -/
def l1_hits (p : CachegrindDataPoint) : Nat := p.total - p.l1_misses

/-- `CachegrindDataPoint::l3_hits` (unchecked `u64` subtraction in source). -/
def l3_hits (p : CachegrindDataPoint) : Nat := p.l1_misses - p.l3_misses

/-- `impl ops::Add for CachegrindDataPoint`: componentwise `u64` addition. -/
def add (p q : CachegrindDataPoint) : CachegrindDataPoint :=
  { total := wadd p.total q.total
    l1_misses := wadd p.l1_misses q.l1_misses
    l3_misses := wadd p.l3_misses q.l3_misses }

/-- `impl ops::Sub for CachegrindDataPoint`: componentwise saturating subtraction. -/
def sub (p q : CachegrindDataPoint) : CachegrindDataPoint :=
  { total := p.total - q.total
    l1_misses := p.l1_misses - q.l1_misses
    l3_misses := p.l3_misses - q.l3_misses }

/-- `impl ops::Mul<u64> for CachegrindDataPoint`: componentwise scalar multiplication. -/
def mul (p : CachegrindDataPoint) (k : Nat) : CachegrindDataPoint :=
  { total := wmul p.total k
    l1_misses := wmul p.l1_misses k
    l3_misses := wmul p.l3_misses k }

/-- The documented invariant `l3_misses ≤ l1_misses ≤ total`. -/
def Inv (p : CachegrindDataPoint) : Prop :=
  p.l3_misses ≤ p.l1_misses ∧ p.l1_misses ≤ p.total

instance : DecidablePred Inv := fun p => by unfold Inv; infer_instance

end CachegrindDataPoint

/-- `FullCachegrindStats`: three `CachegrindDataPoint`s. -/
structure FullCachegrindStats where
  instructions : CachegrindDataPoint
  data_reads : CachegrindDataPoint
  data_writes : CachegrindDataPoint
deriving DecidableEq

namespace FullCachegrindStats

/-- `FullCachegrindStats::default()`. -/
def zero : FullCachegrindStats :=
  ⟨CachegrindDataPoint.zero, CachegrindDataPoint.zero, CachegrindDataPoint.zero⟩

/-- `FullCachegrindStats::is_zero`. -/
def is_zero (s : FullCachegrindStats) : Bool :=
  s.instructions.total == 0 && s.data_reads.total == 0 && s.data_writes.total == 0

/-- `impl ops::Add for FullCachegrindStats`. -/
def add (s t : FullCachegrindStats) : FullCachegrindStats :=
  { instructions := s.instructions.add t.instructions
    data_reads := s.data_reads.add t.data_reads
    data_writes := s.data_writes.add t.data_writes }

/-- `impl ops::Sub for FullCachegrindStats`. -/
def sub (s t : FullCachegrindStats) : FullCachegrindStats :=
  { instructions := s.instructions.sub t.instructions
    data_reads := s.data_reads.sub t.data_reads
    data_writes := s.data_writes.sub t.data_writes }

/-- `impl ops::Mul<u64> for FullCachegrindStats`. The `data_writes` field is
transcribed exactly as in the source (cachegrind.rs line 308), which computes it
from `self.data_reads`. -/
def mul (s : FullCachegrindStats) (k : Nat) : FullCachegrindStats :=
  { instructions := s.instructions.mul k
    data_reads := s.data_reads.mul k
    data_writes := s.data_reads.mul k }

end FullCachegrindStats

/-- `CachegrindStats`: raw summary, either `Simple` (no cache simulation) or `Full`. -/
inductive CachegrindStats where
  | simple (instructions : Nat)
  | full (stats : FullCachegrindStats)
deriving DecidableEq

namespace CachegrindStats

/-- `CachegrindStats::total_instructions`. -/
def total_instructions : CachegrindStats → Nat
  | .simple instructions => instructions
  | .full stats => stats.instructions.total

/-- `CachegrindStats::as_full`. -/
def as_full : CachegrindStats → Option FullCachegrindStats
  | .simple _ => none
  | .full stats => some stats

/-- Whether the stats are the `Full` variant. -/
def isFull : CachegrindStats → Bool
  | .simple _ => false
  | .full _ => true

/-- `CachegrindStats::is_zero`. -/
def is_zero : CachegrindStats → Bool
  | .simple instructions => instructions == 0
  | .full stats => stats.is_zero

/-- `impl ops::Add for CachegrindStats`: `Full`s add componentwise, any other
mix collapses to `Simple` via total instructions. -/
def add (a b : CachegrindStats) : CachegrindStats :=
  match a, b with
  | .full lhs, .full rhs => .full (lhs.add rhs)
  | _, _ => .simple (wadd a.total_instructions b.total_instructions)

/-- `impl ops::Sub for CachegrindStats`: saturating subtraction, collapsing
mixed variants to `Simple` via total instructions. -/
def sub (a b : CachegrindStats) : CachegrindStats :=
  match a, b with
  | .full lhs, .full rhs => .full (lhs.sub rhs)
  | _, _ => .simple (a.total_instructions - b.total_instructions)

/-- Precondition under which the `u64` additions performed by
`CachegrindStats::add` do not overflow. -/
def addOk : CachegrindStats → CachegrindStats → Prop
  | .full lhs, .full rhs =>
      lhs.instructions.total + rhs.instructions.total < u64Size ∧
      lhs.instructions.l1_misses + rhs.instructions.l1_misses < u64Size ∧
      lhs.instructions.l3_misses + rhs.instructions.l3_misses < u64Size ∧
      lhs.data_reads.total + rhs.data_reads.total < u64Size ∧
      lhs.data_reads.l1_misses + rhs.data_reads.l1_misses < u64Size ∧
      lhs.data_reads.l3_misses + rhs.data_reads.l3_misses < u64Size ∧
      lhs.data_writes.total + rhs.data_writes.total < u64Size ∧
      lhs.data_writes.l1_misses + rhs.data_writes.l1_misses < u64Size ∧
      lhs.data_writes.l3_misses + rhs.data_writes.l3_misses < u64Size
  | a, b => a.total_instructions + b.total_instructions < u64Size

instance : ∀ a b : CachegrindStats, Decidable (addOk a b) := fun a b => by
  cases a <;> cases b <;> (unfold addOk; infer_instance)

end CachegrindStats

/-- `AccessSummary`: high-level memory-access stats derived from full stats. -/
structure AccessSummary where
  instructions : Nat
  l1_hits : Nat
  l3_hits : Nat
  ram_accesses : Nat
deriving DecidableEq

namespace AccessSummary

/-- `AccessSummary::estimated_cycles`: `l1_hits + 5 * l3_hits + 35 * ram_accesses`
with `u64` (wrapping) arithmetic. -/
def estimated_cycles (s : AccessSummary) : Nat :=
  wadd (wadd s.l1_hits (wmul 5 s.l3_hits)) (wmul 35 s.ram_accesses)

/-- `impl From<FullCachegrindStats> for AccessSummary`, transcribed with `u64`
(wrapping) additions and unchecked (truncated) subtractions. -/
def ofFull (stats : FullCachegrindStats) : AccessSummary :=
  let ram_accesses :=
    wadd (wadd stats.instructions.l3_misses stats.data_reads.l3_misses)
      stats.data_writes.l3_misses
  let at_least_l3_hits :=
    wadd (wadd stats.instructions.l1_misses stats.data_reads.l1_misses)
      stats.data_writes.l1_misses
  let l3_hits := at_least_l3_hits - ram_accesses
  let total_accesses :=
    wadd (wadd stats.instructions.total stats.data_reads.total) stats.data_writes.total
  let l1_hits := total_accesses - at_least_l3_hits
  { instructions := stats.instructions.total
    l1_hits := l1_hits
    l3_hits := l3_hits
    ram_accesses := ram_accesses }

end AccessSummary

/-! ## Simulator-output parser (`CachegrindOutput::read`)

String helpers are implemented by structural recursion over the character
list of a `String`, so that parses of concrete inputs reduce in the kernel. -/

/-- Splitter for `str::split_whitespace`: cut at whitespace, discarding empty
segments. The accumulator holds the current token reversed. -/
def splitWsChars : List Char → List Char → List (List Char)
  | [], acc => if acc.isEmpty then [] else [acc.reverse]
  | c :: rest, acc =>
      if c.isWhitespace then
        if acc.isEmpty then splitWsChars rest [] else acc.reverse :: splitWsChars rest []
      else splitWsChars rest (c :: acc)

/-- `str::split_whitespace`. -/
def splitWhitespace (s : String) : List String :=
  (splitWsChars s.data []).map fun cs => ⟨cs⟩

/-- `str::strip_prefix` specialized to string patterns. -/
def stripPre (p s : String) : Option String :=
  if p.data.isPrefixOf s.data then some ⟨s.data.drop p.data.length⟩ else none

/-- `str::trim`: strip leading and trailing whitespace. -/
def rustTrim (s : String) : String :=
  ⟨((s.data.dropWhile Char.isWhitespace).reverse.dropWhile Char.isWhitespace).reverse⟩

/-- Decimal value of a digit list. -/
def digitsVal (cs : List Char) : Nat :=
  cs.foldl (fun n c => n * 10 + (c.toNat - '0'.toNat)) 0

/-- `u64::from_str` on decimal digit strings (`none` on empty/non-digit input
and on `u64` overflow; a leading sign is likewise rejected). -/
def parseU64 (s : String) : Option Nat :=
  if s.data.isEmpty then none
  else if s.data.all Char.isDigit then
    if digitsVal s.data < u64Size then some (digitsVal s.data) else none
  else none

/-- Replace-or-append insertion into an association list; models `HashMap`
insertion (including `collect`, where later duplicate keys overwrite earlier
ones). The entry count of the map equals the length of the list. -/
def insertKV {α β : Type} [BEq α] : List (α × β) → α → β → List (α × β)
  | [], k, v => [(k, v)]
  | (k', v') :: rest, k, v =>
      if k' == k then (k, v) :: rest else (k', v') :: insertKV rest k v

/-- `HashMap` built by `collect()` from a key-value sequence. -/
def collectKV {α β : Type} [BEq α] (l : List (α × β)) : List (α × β) :=
  l.foldl (fun m kv => insertKV m kv.1 kv.2) []

/-- `summary_from_map` (cachegrind.rs): look up a well-known event key. -/
def summary_from_map (m : List (String × Nat)) (key : String) : Except String Nat :=
  match List.lookup key m with
  | some v => .ok v
  | none => .error ("missing summary for event " ++ key)

/-- `FullCachegrindStats::read`: extract the nine well-known events. -/
def FullCachegrindStats.read (m : List (String × Nat)) : Except String FullCachegrindStats := do
  .ok
    { instructions :=
        { total := ← summary_from_map m "Ir"
          l1_misses := ← summary_from_map m "I1mr"
          l3_misses := ← summary_from_map m "ILmr" }
      data_reads :=
        { total := ← summary_from_map m "Dr"
          l1_misses := ← summary_from_map m "D1mr"
          l3_misses := ← summary_from_map m "DLmr" }
      data_writes :=
        { total := ← summary_from_map m "Dw"
          l1_misses := ← summary_from_map m "D1mw"
          l3_misses := ← summary_from_map m "DLmw" } }

/-- Build `CachegrindStats` from an event map: one entry means `Simple` (which
must be `Ir`), anything else requires all nine events (`Full`). -/
def statsOfMap (m : List (String × Nat)) : Except String CachegrindStats :=
  if m.length == 1 then do
    let instructions ← summary_from_map m "Ir"
    .ok (.simple instructions)
  else do
    let full ← FullCachegrindStats.read m
    .ok (.full full)

/-- `CachegrindFunction`: function associated with captured stats. -/
structure CachegrindFunction where
  filename : Option String
  name : String
deriving DecidableEq

/-- `*breakdown.entry(function).or_default() += stats`; the default
`CachegrindStats` is `Full(FullCachegrindStats::default())`. -/
def breakdownAdd (b : List (CachegrindFunction × CachegrindStats))
    (f : CachegrindFunction) (s : CachegrindStats) :
    List (CachegrindFunction × CachegrindStats) :=
  insertKV b f (((List.lookup f b).getD (.full FullCachegrindStats.zero)).add s)

/-- `CachegrindOutput`: parsed summary plus per-function breakdown (the
`HashMap` breakdown is modelled as an insertion-ordered association list). -/
structure CachegrindOutput where
  summary : CachegrindStats
  breakdown : List (CachegrindFunction × CachegrindStats)
deriving DecidableEq

/-- Mutable state of the line loop in `CachegrindOutput::read`. -/
structure ReadState where
  events : Option (List String)
  summaryLine : Option String
  filename : Option String
  functionName : Option String
  breakdown : List (CachegrindFunction × CachegrindStats)

/-- Initial state of the line loop. -/
def ReadState.initial : ReadState := ⟨none, none, none, none, []⟩

/-- Parse the `events`/`numbers` zip of a data row into an event map,
propagating `u64`-parse errors as in the source. -/
def buildEventMap (events numbers : List String) : Except String (List (String × Nat)) :=
  (events.zip numbers).foldlM
    (fun m kv =>
      match parseU64 kv.2 with
      | some stat => .ok (insertKV m kv.1 stat)
      | none => .error (kv.1 ++ " stat is not an u64: " ++ kv.2))
    []

/-- One iteration of the line loop of `CachegrindOutput::read`. The returned
`Bool` is `true` when the loop `break`s (a `summary:` line was consumed). -/
def processLine (st : ReadState) (line : String) : Except String (ReadState × Bool) :=
  match stripPre "events:" line with
  | some events_line =>
      if st.events.isSome then .error "events are redefined"
      else .ok ({ st with events := some (splitWhitespace events_line) }, false)
  | none =>
  match stripPre "summary:" line with
  | some summary =>
      if st.summaryLine.isSome then .error "summary is redefined"
      else .ok ({ st with summaryLine := some summary }, true)
  | none =>
  match stripPre "fl=" line with
  | some file =>
      .ok ({ st with filename := if file == "???" then none else some (rustTrim file) }, false)
  | none =>
  match stripPre "fn=" line with
  | some name => .ok ({ st with functionName := some name }, false)
  | none =>
  match st.events, st.functionName with
  | some events, some function_name =>
      let numbers := splitWhitespace line
      if numbers.length != events.length + 1 then .error "mismatch between events and stats"
      else do
        let summary_by_event ← buildEventMap events (numbers.drop 1)
        let stats ← statsOfMap summary_by_event
        let function : CachegrindFunction := ⟨st.filename, function_name⟩
        .ok ({ st with breakdown := breakdownAdd st.breakdown function stats }, false)
  | _, _ => .ok (st, false)

/-- The line loop of `CachegrindOutput::read` (stops after the first summary). -/
def readLoop (st : ReadState) : List String → Except String ReadState
  | [] => .ok st
  | line :: rest => do
      let (st', stop) ← processLine st line
      if stop then .ok st' else readLoop st' rest

/-- `CachegrindOutput::read`, over the list of input lines. -/
def CachegrindOutput.read (lines : List String) : Except String CachegrindOutput := do
  let st ← readLoop ReadState.initial lines
  let events ← match st.events with
    | some e => .ok e
    | none => .error "no events"
  let summary ← match st.summaryLine with
    | some s => .ok s
    | none => .error "no summary"
  let summaryNums ← (splitWhitespace summary).mapM fun num =>
    match parseU64 num with
    | some n => Except.ok n
    | none => Except.error ("summary is not an u64: " ++ num)
  if events.length != summaryNums.length then .error "mismatch between events and summary"
  else do
    let summary_by_event := collectKV (events.zip summaryNums)
    let stats ← statsOfMap summary_by_event
    .ok ⟨stats, st.breakdown⟩

/-- Split a character list at every newline (keeping empty segments), the
accumulator holding the current line reversed. -/
def splitNlChars : List Char → List Char → List (List Char)
  | [], acc => [acc.reverse]
  | c :: rest, acc =>
      if c = '\n' then acc.reverse :: splitNlChars rest [] else splitNlChars rest (c :: acc)

/-- Strip one trailing carriage return. -/
def dropTrailingCr (cs : List Char) : List Char :=
  if cs.getLast? = some '\r' then cs.dropLast else cs

/-- `BufRead::lines`: split on newlines, dropping a final empty segment and a
trailing carriage return on each line. -/
def rustLines (s : String) : List String :=
  let parts := splitNlChars s.data []
  let parts := if parts.getLast? = some [] then parts.dropLast else parts
  parts.map fun l => ⟨dropTrailingCr l⟩

/-- `CachegrindOutput::read` on raw file contents. -/
def CachegrindOutput.readStr (s : String) : Except String CachegrindOutput :=
  CachegrindOutput.read (rustLines s)

/-- Decidable equality for `Except`, used to evaluate parser results. -/
instance {ε α : Type} [DecidableEq ε] [DecidableEq α] : DecidableEq (Except ε α)
  | .ok a, .ok b => by
      cases h : decide (a = b) with
      | true => exact .isTrue (by simp_all)
      | false => exact .isFalse (by simp_all)
  | .ok _, .error _ => .isFalse (by simp)
  | .error _, .ok _ => .isFalse (by simp)
  | .error a, .error b => by
      cases h : decide (a = b) with
      | true => exact .isTrue (by simp_all)
      | false => exact .isFalse (by simp_all)

/-! ## Measurement protocol (`CachegrindRunner::run_benchmark`) -/

/-- Arguments of one `spawn_instrumented` call that vary across the protocol. -/
structure Spawn where
  iterations : Nat
  is_baseline : Bool
deriving DecidableEq

/-- The calibration child: `iterations = 2, is_baseline = true`
(bencher.rs, first `spawn_instrumented` call in `run_benchmark`). -/
def calibrationSpawn : Spawn := ⟨2, true⟩

/-- The child-spawning skeleton of `CachegrindRunner::run_benchmark`, as a
function of the options and of the calibration run's total instruction count.
Returns the list of spawned children in order together with whether the
calibration output was reused as the baseline; `none` models a panic
(`u64` division by zero when the calibration run reports zero instructions,
or `clamp` with `min > max` when `max_iterations == 0`). Both panics occur
after the calibration child has already been spawned. -/
def run_benchmark (warmUp maxIter calibTotal : Nat) : Option (List Spawn × Bool) :=
  if calibTotal = 0 then none
  else
    match rustClamp (warmUp / calibTotal) 1 maxIter with
    | none => none
    | some estimated =>
        if estimated = 1 then
          some ([calibrationSpawn, ⟨estimated + 1, false⟩], true)
        else
          some ([calibrationSpawn, ⟨estimated + 1, true⟩, ⟨estimated + 1, false⟩], false)

/-! ## Harness child (`run_instrumented`, `Capture`, `CaptureGuard`) -/

/-- `CaptureBehavior` (cachegrind.rs). -/
inductive CaptureBehavior where
  | noOp
  | terminateOnStart
  | terminateOnEnd
deriving DecidableEq

/-- Behavior of the `Capture` token built on iteration `i` of
`run_instrumented` (the `match (i == iterations, is_baseline)` expression;
`black_box` is the identity on values). -/
def captureBehavior (i iterations : Nat) (is_baseline : Bool) : CaptureBehavior :=
  match i == iterations, is_baseline with
  | false, _ => .noOp
  | true, true => .terminateOnStart
  | true, false => .terminateOnEnd

/-- `CaptureGuard` (its `terminate` flag). -/
structure CaptureGuard where
  terminate : Bool
deriving DecidableEq

/-- Outcome of `Capture::start`: either a guard is returned or the process
stops instrumentation and exits. `stopped` records that the measurement-stop
marker was emitted (the `instrumentation` feature's `stop_instrumentation`
call preceding `process::exit`). -/
inductive StartOutcome where
  | guard (g : CaptureGuard)
  | exit (stopped : Bool) (code : Nat)
deriving DecidableEq

/-- `Capture::start`. -/
def Capture.start : CaptureBehavior → StartOutcome
  | .noOp => .guard ⟨false⟩
  | .terminateOnStart => .exit true 0
  | .terminateOnEnd => .guard ⟨true⟩

/-- `impl Drop for CaptureGuard`: `some (stopped, exit_code)` when the drop
terminates the process, `none` when it is a no-op. -/
def CaptureGuard.dropRun (g : CaptureGuard) : Option (Bool × Nat) :=
  if g.terminate then some (true, 0) else none

/-! ## Regression checker (`reporter/baseline.rs`)

The `f64` regression ratio and threshold are modelled as exact rationals. -/

/-- `RegressionBenchmarkChecker::ok`: given the configured threshold, the
bench id, the current and previous total instruction counts and the shared
`regressed_benches` list, returns whether a warning is emitted together with
the updated list. -/
def benchmarkCheckerOk (threshold : ℚ) (id : String) (current : Nat)
    (prev : Option Nat) (regressed : List (String × ℚ)) : Bool × List (String × ℚ) :=
  match prev with
  | none => (false, regressed)
  | some prev =>
      match checkedSub current prev with
      | none => (false, regressed)
      | some regression =>
          let r : ℚ := (regression : ℚ) / (prev : ℚ)
          if r > threshold then (true, regressed ++ [(id, r)]) else (false, regressed)

/-- `impl Reporter for RegressionChecker`, method `ok` (shutdown): a fatal
`control.error` is raised exactly when the regressions list is non-empty. -/
def regressionShutdownFatal (regressed : List (String × ℚ)) : Bool :=
  !regressed.isEmpty

/-! ## Benchmark ids (`src/id.rs`)

Rust strings are modelled as character lists. The `location` field is omitted:
both the specialized comparison and `Display` ignore it. -/

/-- `BenchmarkId` (name plus optional args label). -/
structure BenchmarkId where
  name : List Char
  args : Option (List Char)

/-- `impl fmt::Display for BenchmarkId`: `name` or `name/args`. -/
def BenchmarkId.displayChars (id : BenchmarkId) : List Char :=
  match id.args with
  | some args => id.name ++ '/' :: args
  | none => id.name

/-- `impl PartialEq<&str> for BenchmarkId`: the optimized comparison using
length, prefix, suffix and separator checks. The source indexes
`other.as_bytes()[self.name.len()]`, which cannot go out of bounds because
`&&` short-circuits after the length check; the lookup is modelled totally
with `getElem?`. -/
def BenchmarkId.beqStr (id : BenchmarkId) (other : List Char) : Bool :=
  match id.args with
  | some args =>
      (id.name.length + 1 + args.length == other.length)
        && id.name.isPrefixOf other
        && args.isSuffixOf other
        && (other[id.name.length]? == some '/')
  | none => id.name == other

/-! ## Theorems -/

/-- Claim C1 (code bug): the claim states that `FullCachegrindStats * u64`
multiplies each of the three `CounterPoint`s componentwise. The source
(cachegrind.rs line 308) instead computes the `data_writes` field of the
product from `self.data_reads`: on stats with `data_reads ≠ data_writes` the
product's `data_writes` equals `data_reads * k`, not `data_writes * k`.
`instructions` and `data_reads` are multiplied as claimed. -/
theorem fullMul_data_writes_from_data_reads :
    (FullCachegrindStats.mul ⟨⟨1, 0, 0⟩, ⟨2, 0, 0⟩, ⟨3, 0, 0⟩⟩ 1).instructions =
      CachegrindDataPoint.mul ⟨1, 0, 0⟩ 1 ∧
    (FullCachegrindStats.mul ⟨⟨1, 0, 0⟩, ⟨2, 0, 0⟩, ⟨3, 0, 0⟩⟩ 1).data_reads =
      CachegrindDataPoint.mul ⟨2, 0, 0⟩ 1 ∧
    (FullCachegrindStats.mul ⟨⟨1, 0, 0⟩, ⟨2, 0, 0⟩, ⟨3, 0, 0⟩⟩ 1).data_writes =
      CachegrindDataPoint.mul ⟨2, 0, 0⟩ 1 ∧
    (FullCachegrindStats.mul ⟨⟨1, 0, 0⟩, ⟨2, 0, 0⟩, ⟨3, 0, 0⟩⟩ 1).data_writes ≠
      CachegrindDataPoint.mul ⟨3, 0, 0⟩ 1 := by
  refine ⟨rfl, rfl, rfl, ?_⟩
  decide

/-- Claim C9 (code bug): the claim states that `warm_up_instructions == 0` or
`max_iterations == 0` is a fatal configuration error before any bench runs.
The source has no such validation (`options.rs` carries a
`FIXME: add validations` comment): with `warm_up = 0` the protocol proceeds
normally — the division yields 0, the clamp raises it to 1, the calibration
output is reused as the baseline and the full child is spawned; with
`max_iterations = 0` the failure (`clamp` panic) happens only after the
calibration child has already been spawned. -/
theorem zero_warm_up_runs_benchmark :
    run_benchmark 0 1000 5000 = some ([⟨2, true⟩, ⟨2, false⟩], true) ∧
    run_benchmark 1000000 0 5000 = none := by decide

/-- Claim C6: parsing `"events: Ir\nsummary: 1234\n"` yields
`Simple{instructions = 1234}`, and parsing the nine-event example with two
`fn=` sections yields the stated `Full` summary with exactly two breakdown
functions whose (instructions, data-read, data-write) totals are 99/30/24 and
51/18/21. -/
theorem cachegrind_parse_examples :
    CachegrindOutput.readStr "events: Ir\nsummary: 1234\n" =
      .ok ⟨.simple 1234, []⟩ ∧
    CachegrindOutput.readStr
        "events: Ir I1mr ILmr Dr D1mr DLmr Dw D1mw DLmw\nfn=<A>::f\n0 99 3 3 30 0 0 24 0 0\nfn=<B>::g\n0 51 5 5 18 1 0 21 0 0\nsummary: 662469 1899 1843 143129 3638 2694 89043 1330 1210\n" =
      .ok ⟨.full ⟨⟨662469, 1899, 1843⟩, ⟨143129, 3638, 2694⟩, ⟨89043, 1330, 1210⟩⟩,
        [(⟨none, "<A>::f"⟩, .full ⟨⟨99, 3, 3⟩, ⟨30, 0, 0⟩, ⟨24, 0, 0⟩⟩),
         (⟨none, "<B>::g"⟩, .full ⟨⟨51, 5, 5⟩, ⟨18, 1, 0⟩, ⟨21, 0, 0⟩⟩)]⟩ := by
  constructor
  · decide
  · decide

/-- Claim C5: in `run_instrumented(bench, iterations, is_baseline)`, the
`Capture` token of iteration `i ∈ 1..=iterations` behaves as `NoOp` when
`i < iterations`, `TerminateOnStart` when `i == iterations && is_baseline`,
and `TerminateOnEnd` when `i == iterations && !is_baseline`; starting a
`TerminateOnStart` capture stops measurement and exits with code 0, and
dropping the guard of a started `TerminateOnEnd` capture stops measurement
and exits with code 0. -/
theorem captureBehavior_spec (i iterations : Nat) (is_baseline : Bool)
    (h1 : 1 ≤ i) (h2 : i ≤ iterations) :
    (i < iterations → captureBehavior i iterations is_baseline = .noOp) ∧
    (i = iterations → is_baseline = true →
      captureBehavior i iterations is_baseline = .terminateOnStart) ∧
    (i = iterations → is_baseline = false →
      captureBehavior i iterations is_baseline = .terminateOnEnd) ∧
    Capture.start .terminateOnStart = .exit true 0 ∧
    Capture.start .terminateOnEnd = .guard ⟨true⟩ ∧
    CaptureGuard.dropRun ⟨true⟩ = some (true, 0) := by
  refine ⟨?_, ?_, ?_, rfl, rfl, rfl⟩
  · intro hlt
    have hne : (i == iterations) = false := by simp [Nat.ne_of_lt hlt]
    simp [captureBehavior, hne]
  · rintro rfl rfl
    simp [captureBehavior]
  · rintro rfl rfl
    simp [captureBehavior]

/-- Witness for `captureBehavior_spec` at `iterations = 2`. -/
theorem captureBehavior_spec_witness :
    captureBehavior 1 2 true = .noOp ∧
    captureBehavior 2 2 true = .terminateOnStart ∧
    captureBehavior 2 2 false = .terminateOnEnd :=
  ⟨(captureBehavior_spec 1 2 true (by decide) (by decide)).1 (by decide),
   (captureBehavior_spec 2 2 true (by decide) (by decide)).2.1 rfl rfl,
   (captureBehavior_spec 2 2 false (by decide) (by decide)).2.2.1 rfl rfl⟩

/-- Wrapping addition is exact below `2^64`. -/
theorem wadd_eq {x y : Nat} (h : x + y < u64Size) : wadd x y = x + y :=
  Nat.mod_eq_of_lt h

/-- Wrapping multiplication is exact below `2^64`. -/
theorem wmul_eq {x y : Nat} (h : x * y < u64Size) : wmul x y = x * y :=
  Nat.mod_eq_of_lt h

/-- Claim C2: in measure mode the calibration child uses
`iterations = 2, is_baseline = true`; `estimated` is
`clamp(warm_up / calib_total, 1, max_iterations)`; if `estimated = 1` the
calibration output is the baseline and only the full child
(`iterations = 2, is_baseline = false`) is additionally spawned; otherwise a
baseline child and a full child are spawned, both with
`iterations = estimated + 1`. -/
theorem run_benchmark_spawns (w m t : Nat) (ht : 0 < t) (hm : 0 < m) :
    calibrationSpawn = ⟨2, true⟩ ∧
    rustClamp (w / t) 1 m = some (min (max (w / t) 1) m) ∧
    (min (max (w / t) 1) m = 1 →
      run_benchmark w m t = some ([calibrationSpawn, ⟨2, false⟩], true)) ∧
    (1 < min (max (w / t) 1) m →
      run_benchmark w m t =
        some ([calibrationSpawn, ⟨min (max (w / t) 1) m + 1, true⟩,
               ⟨min (max (w / t) 1) m + 1, false⟩], false)) := by
  have hclamp : rustClamp (w / t) 1 m = some (min (max (w / t) 1) m) := by
    unfold rustClamp
    by_cases h0 : w / t < 1
    · have he : min (max (w / t) 1) m = 1 := by omega
      simp [he, h0]
      omega
    · by_cases h1 : w / t > m
      · have he : min (max (w / t) 1) m = m := by omega
        simp [he, h0, h1]
        omega
      · have he : min (max (w / t) 1) m = w / t := by omega
        simp [he, h0, h1]
        omega
  refine ⟨rfl, hclamp, ?_, ?_⟩
  · intro he
    unfold run_benchmark
    rw [if_neg (show ¬ t = 0 by omega), hclamp]
    simp [he]
  · intro he
    unfold run_benchmark
    rw [if_neg (show ¬ t = 0 by omega), hclamp]
    simp [show ¬ (min (max (w / t) 1) m = 1) by omega]

/-- Witness for `run_benchmark_spawns`: with `warm_up = 1_000_000`,
`max_iterations = 1_000` and calibration total 5_000, `estimated = 200` and
both subsequent children are spawned with 201 iterations. -/
theorem run_benchmark_spawns_witness :
    run_benchmark 1000000 1000 5000 =
      some ([⟨2, true⟩, ⟨201, true⟩, ⟨201, false⟩], false) :=
  (((run_benchmark_spawns 1000000 1000 5000 (by decide) (by decide)).2.2.2
    (by decide)).trans (by decide))

/-- Componentwise cancellation for `CachegrindDataPoint`: adding then
saturating-subtracting the same point is the identity, absent `u64` overflow
in the addition. -/
theorem point_add_sub_cancel (p q : CachegrindDataPoint)
    (h1 : p.total + q.total < u64Size)
    (h2 : p.l1_misses + q.l1_misses < u64Size)
    (h3 : p.l3_misses + q.l3_misses < u64Size) :
    (p.add q).sub q = p := by
  cases p with | mk a b c =>
  cases q with | mk d e f =>
  simp only [CachegrindDataPoint.add, CachegrindDataPoint.sub] at *
  rw [wadd_eq h1, wadd_eq h2, wadd_eq h3]
  simp only [CachegrindDataPoint.mk.injEq]
  omega

/-- Claim C8: `(a + b) − b == a` up to saturating floors: absent `u64`
overflow in the addition, `(a + b) − b = a` when both operands are the same
variant, and `= Simple{instructions = a.total_instructions()}` when the
variants are mixed. -/
theorem stats_add_sub_cancel (a b : CachegrindStats) (h : a.addOk b) :
    (a.isFull = b.isFull → (a.add b).sub b = a) ∧
    (a.isFull ≠ b.isFull → (a.add b).sub b = .simple a.total_instructions) := by
  cases a with
  | simple m =>
    cases b with
    | simple n =>
      refine ⟨fun _ => ?_, fun hne => absurd rfl hne⟩
      have h' : m + n < u64Size := h
      simp only [CachegrindStats.add, CachegrindStats.sub, CachegrindStats.total_instructions]
      rw [wadd_eq h']
      simp
    | full g =>
      refine ⟨fun hv => (nomatch hv), fun _ => ?_⟩
      have h' : m + g.instructions.total < u64Size := h
      simp only [CachegrindStats.add, CachegrindStats.sub, CachegrindStats.total_instructions]
      rw [wadd_eq h']
      simp
  | full f =>
    cases b with
    | simple n =>
      refine ⟨fun hv => (nomatch hv), fun _ => ?_⟩
      have h' : f.instructions.total + n < u64Size := h
      simp only [CachegrindStats.add, CachegrindStats.sub, CachegrindStats.total_instructions]
      rw [wadd_eq h']
      simp
    | full g =>
      refine ⟨fun _ => ?_, fun hne => absurd rfl hne⟩
      obtain ⟨h1, h2, h3, h4, h5, h6, h7, h8, h9⟩ := h
      simp only [CachegrindStats.add, CachegrindStats.sub]
      congr 1
      cases f with | mk fi fr fw =>
      cases g with | mk gi gr gw =>
      simp only [FullCachegrindStats.add, FullCachegrindStats.sub] at *
      rw [point_add_sub_cancel fi gi h1 h2 h3, point_add_sub_cancel fr gr h4 h5 h6,
        point_add_sub_cancel fw gw h7 h8 h9]

/-- Witness for `stats_add_sub_cancel`: a `Full`/`Full` pair cancels exactly
and a mixed `Full`/`Simple` pair collapses to `Simple` via total
instructions. -/
theorem stats_add_sub_cancel_witness :
    ((CachegrindStats.full ⟨⟨9, 4, 2⟩, ⟨7, 3, 1⟩, ⟨6, 2, 0⟩⟩).add
        (.full ⟨⟨5, 1, 1⟩, ⟨4, 2, 0⟩, ⟨3, 1, 1⟩⟩)).sub
      (.full ⟨⟨5, 1, 1⟩, ⟨4, 2, 0⟩, ⟨3, 1, 1⟩⟩) =
      .full ⟨⟨9, 4, 2⟩, ⟨7, 3, 1⟩, ⟨6, 2, 0⟩⟩ ∧
    ((CachegrindStats.full ⟨⟨9, 4, 2⟩, ⟨7, 3, 1⟩, ⟨6, 2, 0⟩⟩).add (.simple 7)).sub
      (.simple 7) = .simple 9 :=
  ⟨(stats_add_sub_cancel (.full ⟨⟨9, 4, 2⟩, ⟨7, 3, 1⟩, ⟨6, 2, 0⟩⟩)
      (.full ⟨⟨5, 1, 1⟩, ⟨4, 2, 0⟩, ⟨3, 1, 1⟩⟩) (by decide)).1 rfl,
   (stats_add_sub_cancel (.full ⟨⟨9, 4, 2⟩, ⟨7, 3, 1⟩, ⟨6, 2, 0⟩⟩)
      (.simple 7) (by decide)).2 (by decide)⟩

/-- Claim C3 counterexample: at `instructions = ⟨2, 1, 0⟩` and zero data
points (each satisfying `l3_misses ≤ l1_misses ≤ total`), the claimed
identity `instructions + data_reads.total + data_writes.total = l1_hits +
l3_hits + ram_accesses + instructions.l1_misses` fails: the left side is 2
while the right side is 3. -/
theorem accessSummary_partition_counterexample :
    CachegrindDataPoint.Inv ⟨2, 1, 0⟩ ∧ CachegrindDataPoint.Inv ⟨0, 0, 0⟩ ∧
    ¬ ((AccessSummary.ofFull ⟨⟨2, 1, 0⟩, ⟨0, 0, 0⟩, ⟨0, 0, 0⟩⟩).instructions +
          (0 : Nat) + 0 =
        (AccessSummary.ofFull ⟨⟨2, 1, 0⟩, ⟨0, 0, 0⟩, ⟨0, 0, 0⟩⟩).l1_hits +
          (AccessSummary.ofFull ⟨⟨2, 1, 0⟩, ⟨0, 0, 0⟩, ⟨0, 0, 0⟩⟩).l3_hits +
          (AccessSummary.ofFull ⟨⟨2, 1, 0⟩, ⟨0, 0, 0⟩, ⟨0, 0, 0⟩⟩).ram_accesses + 1) := by
  decide

/-- Claim C3 (amended): for full stats whose points satisfy
`l3_misses ≤ l1_misses ≤ total` (and absent `u64` overflow), the partition is
exact without the spurious `+ instructions.l1_misses` term:
`instructions + data_reads.total + data_writes.total = l1_hits + l3_hits +
ram_accesses`; and estimated cycles equal
`l1_hits + 5·l3_hits + 35·ram_accesses`. -/
theorem accessSummary_partition (s : FullCachegrindStats)
    (hi : s.instructions.Inv) (hr : s.data_reads.Inv) (hw : s.data_writes.Inv)
    (hb : 35 * (s.instructions.total + s.data_reads.total + s.data_writes.total) < u64Size) :
    (AccessSummary.ofFull s).instructions + s.data_reads.total + s.data_writes.total =
      (AccessSummary.ofFull s).l1_hits + (AccessSummary.ofFull s).l3_hits +
        (AccessSummary.ofFull s).ram_accesses ∧
    (AccessSummary.ofFull s).estimated_cycles =
      (AccessSummary.ofFull s).l1_hits + 5 * (AccessSummary.ofFull s).l3_hits +
        35 * (AccessSummary.ofFull s).ram_accesses := by
  obtain ⟨hi1, hi2⟩ := hi
  obtain ⟨hr1, hr2⟩ := hr
  obtain ⟨hw1, hw2⟩ := hw
  cases s with | mk I R W =>
  cases I with | mk it il1 il3 =>
  cases R with | mk rt rl1 rl3 =>
  cases W with | mk wt wl1 wl3 =>
  simp only [CachegrindDataPoint.Inv] at *
  refine ⟨?_, ?_⟩ <;>
    simp only [AccessSummary.ofFull, AccessSummary.estimated_cycles] <;>
    rw [wadd_eq (x := il3) (by omega), wadd_eq (x := il3 + rl3) (by omega),
      wadd_eq (x := il1) (by omega), wadd_eq (x := il1 + rl1) (by omega),
      wadd_eq (x := it) (by omega), wadd_eq (x := it + rt) (by omega)]
  · omega
  · rw [wmul_eq (x := 5) (by omega), wmul_eq (x := 35) (by omega),
      wadd_eq (x := it + rt + wt - (il1 + rl1 + wl1)) (by omega), wadd_eq (by omega)]

/-- Witness for `accessSummary_partition` at the full stats of the parsing
example. -/
theorem accessSummary_partition_witness :
    (AccessSummary.ofFull
        ⟨⟨662469, 1899, 1843⟩, ⟨143129, 3638, 2694⟩, ⟨89043, 1330, 1210⟩⟩).instructions +
        143129 + 89043 =
      (AccessSummary.ofFull
        ⟨⟨662469, 1899, 1843⟩, ⟨143129, 3638, 2694⟩, ⟨89043, 1330, 1210⟩⟩).l1_hits +
      (AccessSummary.ofFull
        ⟨⟨662469, 1899, 1843⟩, ⟨143129, 3638, 2694⟩, ⟨89043, 1330, 1210⟩⟩).l3_hits +
      (AccessSummary.ofFull
        ⟨⟨662469, 1899, 1843⟩, ⟨143129, 3638, 2694⟩, ⟨89043, 1330, 1210⟩⟩).ram_accesses ∧
    (AccessSummary.ofFull
        ⟨⟨662469, 1899, 1843⟩, ⟨143129, 3638, 2694⟩, ⟨89043, 1330, 1210⟩⟩).estimated_cycles =
      (AccessSummary.ofFull
        ⟨⟨662469, 1899, 1843⟩, ⟨143129, 3638, 2694⟩, ⟨89043, 1330, 1210⟩⟩).l1_hits +
      5 * (AccessSummary.ofFull
        ⟨⟨662469, 1899, 1843⟩, ⟨143129, 3638, 2694⟩, ⟨89043, 1330, 1210⟩⟩).l3_hits +
      35 * (AccessSummary.ofFull
        ⟨⟨662469, 1899, 1843⟩, ⟨143129, 3638, 2694⟩, ⟨89043, 1330, 1210⟩⟩).ram_accesses :=
  accessSummary_partition ⟨⟨662469, 1899, 1843⟩, ⟨143129, 3638, 2694⟩, ⟨89043, 1330, 1210⟩⟩
    (by decide) (by decide) (by decide) (by decide)

/-- Claim C4 counterexample: saturating subtraction does not preserve the
invariant `l3_misses ≤ l1_misses ≤ total`: the points `⟨10, 5, 0⟩` and
`⟨10, 0, 0⟩` both satisfy it, but their difference `⟨0, 5, 0⟩` has
`l1_misses = 5 > total = 0`. -/
theorem inv_sub_counterexample :
    CachegrindDataPoint.Inv ⟨10, 5, 0⟩ ∧ CachegrindDataPoint.Inv ⟨10, 0, 0⟩ ∧
    ¬ CachegrindDataPoint.Inv (CachegrindDataPoint.sub ⟨10, 5, 0⟩ ⟨10, 0, 0⟩) := by
  decide

/-- Claim C4 (amended): for points satisfying the invariant
`l3_misses ≤ l1_misses ≤ total`, addition and scalar multiplication preserve
it (absent `u64` overflow), and saturating subtraction `p − q` preserves it
provided the subtrahend is dominated in the miss/hit decomposition
(`q.l3_misses ≤ p.l3_misses`, `q.l3_hits ≤ p.l3_hits`,
`q.l1_hits ≤ p.l1_hits`); without such side conditions subtraction (and hence
parsing arbitrary simulator output) need not satisfy it. -/
theorem inv_preservation (p q : CachegrindDataPoint) (k : Nat)
    (hp : p.Inv) (hq : q.Inv) :
    (p.total + q.total < u64Size → (p.add q).Inv) ∧
    (p.total * k < u64Size → (p.mul k).Inv) ∧
    (q.l3_misses ≤ p.l3_misses → q.l3_hits ≤ p.l3_hits → q.l1_hits ≤ p.l1_hits →
      (p.sub q).Inv) := by
  obtain ⟨hp1, hp2⟩ := hp
  obtain ⟨hq1, hq2⟩ := hq
  refine ⟨?_, ?_, ?_⟩
  · intro h
    unfold CachegrindDataPoint.add
    rw [wadd_eq (by omega), wadd_eq (by omega), wadd_eq (by omega)]
    unfold CachegrindDataPoint.Inv
    dsimp only
    omega
  · intro h
    have hl1 : p.l1_misses * k ≤ p.total * k := Nat.mul_le_mul_right k hp2
    have hl3 : p.l3_misses * k ≤ p.l1_misses * k := Nat.mul_le_mul_right k hp1
    unfold CachegrindDataPoint.mul
    rw [wmul_eq (by omega), wmul_eq (by omega), wmul_eq (by omega)]
    unfold CachegrindDataPoint.Inv
    dsimp only
    omega
  · intro h1 h2 h3
    unfold CachegrindDataPoint.l3_hits at h2
    unfold CachegrindDataPoint.l1_hits at h3
    unfold CachegrindDataPoint.sub CachegrindDataPoint.Inv
    dsimp only
    omega

/-- Witness for `inv_preservation` at `p = ⟨10, 5, 2⟩`, `q = ⟨4, 3, 1⟩`,
`k = 2`. -/
theorem inv_preservation_witness :
    (CachegrindDataPoint.add ⟨10, 5, 2⟩ ⟨4, 3, 1⟩).Inv ∧
    (CachegrindDataPoint.mul ⟨10, 5, 2⟩ 2).Inv ∧
    (CachegrindDataPoint.sub ⟨10, 5, 2⟩ ⟨4, 3, 1⟩).Inv :=
  ⟨(inv_preservation ⟨10, 5, 2⟩ ⟨4, 3, 1⟩ 2 (by decide) (by decide)).1 (by decide),
   (inv_preservation ⟨10, 5, 2⟩ ⟨4, 3, 1⟩ 2 (by decide) (by decide)).2.1 (by decide),
   (inv_preservation ⟨10, 5, 2⟩ ⟨4, 3, 1⟩ 2 (by decide) (by decide)).2.2
     (by decide) (by decide) (by decide)⟩

/-- Claim C7: with a non-negative threshold and positive previous count, the
regression checker warns and records the bench exactly when the current total
instruction count exceeds the previous one and the relative increase exceeds
the threshold; at shutdown a fatal error is raised exactly when the
regressions list is non-empty. -/
theorem regression_checker_spec (threshold : ℚ) (id : String) (current prev : Nat)
    (regressed : List (String × ℚ)) (ht : 0 ≤ threshold) (hp : 0 < prev) :
    ((benchmarkCheckerOk threshold id current (some prev) regressed).1 = true ↔
      (prev < current ∧ threshold < ((current : ℚ) - prev) / prev)) ∧
    ((benchmarkCheckerOk threshold id current (some prev) regressed).2 =
      if prev < current ∧ threshold < ((current : ℚ) - prev) / prev then
        regressed ++ [(id, ((current : ℚ) - prev) / prev)]
      else regressed) ∧
    (regressionShutdownFatal regressed = true ↔ regressed ≠ []) := by
  have hshut : regressionShutdownFatal regressed = true ↔ regressed ≠ [] := by
    cases regressed <;> simp [regressionShutdownFatal]
  have hp' : (0 : ℚ) < (prev : ℚ) := by exact_mod_cast hp
  have hkey : benchmarkCheckerOk threshold id current (some prev) regressed =
      if prev < current ∧ threshold < ((current : ℚ) - prev) / prev then
        (true, regressed ++ [(id, ((current : ℚ) - prev) / prev)])
      else (false, regressed) := by
    unfold benchmarkCheckerOk checkedSub
    dsimp only
    by_cases hlt : current < prev
    · rw [if_pos hlt, if_neg (by rintro ⟨h, -⟩; omega)]
    · have hle : prev ≤ current := by omega
      have hcast : ((current - prev : Nat) : ℚ) = (current : ℚ) - (prev : ℚ) :=
        Nat.cast_sub hle
      rw [if_neg hlt]
      dsimp only
      by_cases hr : threshold < ((current - prev : Nat) : ℚ) / (prev : ℚ)
      · have hr' : threshold < ((current : ℚ) - prev) / prev := by rw [← hcast]; exact hr
        have hpc : prev < current := by
          by_contra hnc
          have h0 : current - prev = 0 := by omega
          rw [h0] at hr
          simp at hr
          exact absurd (lt_of_le_of_lt ht hr) (lt_irrefl 0)
        rw [if_pos hr, if_pos ⟨hpc, hr'⟩, hcast]
      · have hr' : ¬ threshold < ((current : ℚ) - prev) / prev := by rw [← hcast]; exact hr
        rw [if_neg hr, if_neg (by rintro ⟨-, h⟩; exact hr' h)]
  refine ⟨?_, ?_, hshut⟩
  · rw [hkey]
    by_cases hc : prev < current ∧ threshold < ((current : ℚ) - prev) / prev
    · simp [hc]
    · simp [hc]
  · rw [hkey]
    by_cases hc : prev < current ∧ threshold < ((current : ℚ) - prev) / prev
    · simp [hc]
    · simp [hc]

/-- Witness for `regression_checker_spec`: previous total 1 800 019, current
1 830 027 and threshold 1/100 trigger the warning, and the resulting
non-empty list makes shutdown fatal. -/
theorem regression_checker_spec_witness :
    (benchmarkCheckerOk (1 / 100) "bench" 1830027 (some 1800019) []).1 = true ∧
    regressionShutdownFatal [("bench", (30008 : ℚ) / 1800019)] = true :=
  ⟨(regression_checker_spec (1 / 100) "bench" 1830027 1800019 []
      (by norm_num) (by norm_num)).1.mpr ⟨by norm_num, by norm_num⟩,
   (regression_checker_spec (1 / 100) "bench" 1830027 1800019
      [("bench", (30008 : ℚ) / 1800019)] (by norm_num) (by norm_num)).2.2.mpr
      (by simp)⟩

/-- Claim C10: the specialized `PartialEq<&str>` comparison on `BenchmarkId`
(length, prefix, suffix and separator checks) returns `true` exactly when the
canonical display form of the id (`name` or `name/args`) equals the compared
string. -/
theorem benchmarkId_beq_iff_display (id : BenchmarkId) (s : List Char) :
    id.beqStr s = true ↔ id.displayChars = s := by
  cases id with | mk name args =>
  cases args with
  | none => simp [BenchmarkId.beqStr, BenchmarkId.displayChars]
  | some a =>
    simp only [BenchmarkId.beqStr, BenchmarkId.displayChars, Bool.and_eq_true,
      beq_iff_eq, List.isPrefixOf_iff_prefix, List.isSuffixOf_iff_suffix]
    constructor
    · rintro ⟨⟨⟨hlen, hpre⟩, hsuf⟩, hmid⟩
      obtain ⟨t, rfl⟩ := hpre
      have hlen' : t.length = 1 + a.length := by
        simp [List.length_append] at hlen
        omega
      cases t with
      | nil =>
        simp only [List.length_nil] at hlen'
        exact absurd hlen' (by omega)
      | cons c t' =>
        have hc : c = '/' := by
          rw [List.getElem?_append_right (Nat.le_refl _)] at hmid
          simp at hmid
          exact hmid
        subst hc
        obtain ⟨u, hu⟩ := hsuf
        have hlt : t'.length = a.length := by
          simp at hlen'
          omega
        rw [List.append_cons] at hu
        have hul : (name ++ ['/']).length = u.length := by
          have hlu := congrArg List.length hu
          simp at hlu ⊢
          omega
        obtain ⟨-, ha⟩ := List.append_inj hu.symm hul
        rw [ha]
    · rintro rfl
      refine ⟨⟨⟨?_, ?_⟩, ?_⟩, ?_⟩
      · simp [List.length_append]
        omega
      · exact List.prefix_append name ('/' :: a)
      · exact ⟨name ++ ['/'], by simp⟩
      · rw [List.getElem?_append_right (Nat.le_refl _)]
        simp
